import Mathlib

/-! Verification of the reward-metrics aggregators of verl-articulation.

Two implementations exist in the repository:
`compute_reward_metrics` in src/test_reward_metrics.py and
`compute_reward_metrics_standalone` in src/complete_test.py.
Python float values are modelled as exact rationals together with explicit
NaN / +inf / -inf values; the result of float(np.std(a)) is recorded
symbolically as `MetricValue.sqrtOf v` where `v` is the (population)
variance that numpy takes the square root of.  Torch tensors are outside
the modelled fragment (no claim exercises them); the observation variants
modelled are numeric scalars, nested numeric lists and strings, exactly the
shapes exercised by the repository's tests and by the claims. -/

namespace VerlArticulation

/-- A Python float value: a finite rational, NaN, +infinity or -infinity. -/
inductive RVal : Type where
  | fin (q : ℚ)
  | nan
  | inf
  | ninf
deriving DecidableEq, Repr

/-- Whether the value is NaN. -/
def RVal.isNan : RVal → Bool
  | .nan => true
  | _ => false

/-- Whether the value is +infinity. -/
def RVal.isInf : RVal → Bool
  | .inf => true
  | _ => false

/-- Whether the value is -infinity. -/
def RVal.isNinf : RVal → Bool
  | .ninf => true
  | _ => false

/-- Whether the value is finite (np.isfinite). -/
def RVal.isFinite : RVal → Bool
  | .fin _ => true
  | _ => false

/-- The rational carried by a finite value. -/
def RVal.toQ? : RVal → Option ℚ
  | .fin q => some q
  | _ => none

/-- One per-sample observation attached to a signal: a numeric scalar, a
nested list of numbers, or a string. -/
inductive RawObservation : Type where
  | scalar (v : RVal)
  | nested (xs : List RVal)
  | str (s : String)
deriving DecidableEq, Repr

/-- A signal's series: the list of its per-sample observations. -/
abbrev SignalSeries := List RawObservation

/-- Whether the observation is a scalar. -/
def RawObservation.isScalar : RawObservation → Bool
  | .scalar _ => true
  | _ => false

/-- Whether the observation is a nested list. -/
def RawObservation.isNested : RawObservation → Bool
  | .nested _ => true
  | _ => false

/-- The inner list of a nested observation (empty for other variants). -/
def RawObservation.innerList : RawObservation → List RVal
  | .nested xs => xs
  | _ => []

/-- The scalar payload of a scalar observation. -/
def RawObservation.scalarVal? : RawObservation → Option RVal
  | .scalar v => some v
  | _ => none

/-- The finite elements of a list of values, as rationals
(the effect of a[np.isfinite(a)]). -/
def finiteVals (xs : List RVal) : List ℚ :=
  xs.filterMap RVal.toQ?

/-- Arithmetic mean of a rational list (np.mean on a finite array). -/
def qMean (qs : List ℚ) : ℚ :=
  qs.sum / qs.length

/-- Maximum of a rational list (np.max on a finite array); 0 for []. -/
def qMax : List ℚ → ℚ
  | [] => 0
  | [x] => x
  | x :: y :: t => max x (qMax (y :: t))

/-- Minimum of a rational list (np.min on a finite array); 0 for []. -/
def qMin : List ℚ → ℚ
  | [] => 0
  | [x] => x
  | x :: y :: t => min x (qMin (y :: t))

/-- Population variance of a rational list: np.std squared (np.std uses
ddof = 0, the mean of the squared deviations from the mean). -/
def qVar (qs : List ℚ) : ℚ :=
  qMean (qs.map (fun x => (x - qMean qs) ^ 2))

/-- A value stored in the metrics report: a finite float (exact rational),
a non-finite float, or the square root of a rational (how float(np.std ...)
and similar irrational results are recorded). -/
inductive MetricValue : Type where
  | num (q : ℚ)
  | nan
  | inf
  | ninf
  | sqrtOf (v : ℚ)
deriving DecidableEq, Repr

/-- View of an RVal as a stored metric value. -/
def RVal.toMetricValue : RVal → MetricValue
  | .fin q => .num q
  | .nan => .nan
  | .inf => .inf
  | .ninf => .ninf

/-- Whether a stored metric value is a finite number (not NaN or ±inf). -/
def MetricValue.isFiniteVal : MetricValue → Bool
  | .nan => false
  | .inf => false
  | .ninf => false
  | _ => true

/-- The emitted metric name: "reward/" ++ signal ++ "/" ++ stat. -/
def metricKey (k stat : String) : String :=
  "reward/" ++ k ++ "/" ++ stat

/-- Concatenation of the inner lists of a series (the list comprehension
[item for sublist in values for item in sublist]). -/
def concatInner : SignalSeries → List RVal
  | [] => []
  | v :: t => v.innerList ++ concatInner t

/-- Flattening step of compute_reward_metrics (test_reward_metrics.py):
empty series are skipped; the branch is chosen from the first element.
A first nested element leads to the one-level flattening list
comprehension, which fails (TypeError / non-numeric dtype, hence skip)
unless every element is a nested list; a first scalar element leads to
np.array(values), which is numeric only when every element is a numeric
scalar; a first string element yields a non-numeric string dtype, skip. -/
def py1Flatten : SignalSeries → Option (List RVal)
  | [] => none
  | v :: vs =>
    match v with
    | .scalar _ =>
      if (v :: vs).all RawObservation.isScalar then
        some ((v :: vs).filterMap RawObservation.scalarVal?)
      else none
    | .nested _ =>
      if (v :: vs).all RawObservation.isNested then
        some (concatInner (v :: vs))
      else none
    | .str _ => none

/-- Per-signal processing of compute_reward_metrics: flatten, skip empty
or non-numeric arrays, keep only finite values, then emit mean, max, min,
and std only when more than one value remains.  No count is emitted. -/
def py1Signal (k : String) (vs : SignalSeries) : List (String × MetricValue) :=
  match py1Flatten vs with
  | none => []
  | some flat =>
    if flat.isEmpty then []
    else
      let fvs := finiteVals flat
      if fvs.isEmpty then []
      else
        [(metricKey k "mean", .num (qMean fvs)),
         (metricKey k "max", .num (qMax fvs)),
         (metricKey k "min", .num (qMin fvs))]
        ++ (if 1 < fvs.length then [(metricKey k "std", .sqrtOf (qVar fvs))] else [])

/-- compute_reward_metrics of src/test_reward_metrics.py: loop over the
signal/series pairs, accumulating each signal's metrics. -/
def compute_reward_metrics : List (String × SignalSeries) → List (String × MetricValue)
  | [] => []
  | (k, vs) :: t => py1Signal k vs ++ compute_reward_metrics t

/-- Value of a run of decimal digits read left to right (used only on runs
already checked to be all digits). -/
def digitsValD (cs : List Char) : Nat :=
  cs.foldl (fun n c => 10 * n + (c.toNat - 48)) 0

/-- Conversion of a string to a float as applied element-wise by
np.array(values, dtype=float) in compute_reward_metrics_standalone,
modelled on the decimal-literal fragment: an optional sign, an integer
part and an optional fractional part after a single dot, at least one
digit overall.  Exponent notation, "inf"/"nan" spellings and surrounding
whitespace (which Python would also accept) lie outside the modelled
fragment; every string the repository's tests and the claims use is
covered ("hello", "world" fail to convert, "1.5" converts to 3/2). -/
def pyFloat? (s : String) : Option ℚ :=
  let cs := s.toList
  let sgn : ℚ := if cs.head? = some ('-' : Char) then -1 else 1
  let body :=
    if cs.head? = some ('-' : Char) || cs.head? = some ('+' : Char) then
      cs.tail
    else cs
  let ip := body.takeWhile (fun c => !(c == '.'))
  let rest := body.dropWhile (fun c => !(c == '.'))
  let frac := rest.drop 1
  if ip.all Char.isDigit && frac.all Char.isDigit && !(ip.isEmpty && frac.isEmpty) then
    some (sgn * ((digitsValD ip : ℚ) + (digitsValD frac : ℚ) / (10 : ℚ) ^ frac.length))
  else none

/-- The float an atomic (non-list) element converts to under
np.array(values, dtype=float): numbers convert to themselves, strings
convert iff they parse as a float, nested lists are not atoms. -/
def atomVal? : RawObservation → Option RVal
  | .scalar v => some v
  | .str s => (pyFloat? s).map RVal.fin
  | .nested _ => none

/-- Whether all elements of a series have inner lists of one common length
(np.array builds a rectangular 2-D array; ragged input raises ValueError). -/
def sameInnerLen : SignalSeries → Bool
  | [] => true
  | v :: t => t.all (fun o => o.innerList.length == v.innerList.length)

/-- The conversion np.array(values, dtype=float) of the standalone
implementation, returning the length of the resulting array (its first
axis, what len() reports) together with all scalars it holds.  A list
whose elements are all float-convertible atoms becomes a 1-D array; a
list of equal-length nested lists becomes a 2-D array whose len is the
outer length; anything else raises ValueError, which the caller catches. -/
def standaloneConvert (vs : SignalSeries) : Option (Nat × List RVal) :=
  if vs.all (fun o => (atomVal? o).isSome) then
    some (vs.length, vs.filterMap atomVal?)
  else if vs.all RawObservation.isNested && sameInnerLen vs then
    some (vs.length, concatInner vs)
  else none

/-- np.sum semantics over possibly non-finite values: NaN absorbs, mixed
infinities give NaN, otherwise an infinity dominates, otherwise the exact
finite sum. -/
def rSum (xs : List RVal) : RVal :=
  if xs.any RVal.isNan then .nan
  else if xs.any RVal.isInf && xs.any RVal.isNinf then .nan
  else if xs.any RVal.isInf then .inf
  else if xs.any RVal.isNinf then .ninf
  else .fin (finiteVals xs).sum

/-- np.mean semantics: the sum divided by the element count; a non-finite
sum stays as it is. -/
def rMean (xs : List RVal) : RVal :=
  match rSum xs with
  | .fin q => .fin (q / xs.length)
  | v => v

/-- np.max semantics: NaN propagates; otherwise +inf dominates, then the
largest finite value, and -inf only if nothing else is present. -/
def rMax (xs : List RVal) : RVal :=
  if xs.any RVal.isNan then .nan
  else if xs.any RVal.isInf then .inf
  else if (finiteVals xs).isEmpty then .ninf
  else .fin (qMax (finiteVals xs))

/-- np.min semantics, symmetric to rMax. -/
def rMin (xs : List RVal) : RVal :=
  if xs.any RVal.isNan then .nan
  else if xs.any RVal.isNinf then .ninf
  else if (finiteVals xs).isEmpty then .inf
  else .fin (qMin (finiteVals xs))

/-- float(np.std(a)) semantics: any non-finite element makes the result
NaN (the deviation of an infinite element from an infinite or NaN mean is
NaN); on all-finite input it is the square root of the population
variance, recorded symbolically. -/
def rStdMetric (xs : List RVal) : MetricValue :=
  if xs.all RVal.isFinite then .sqrtOf (qVar (finiteVals xs)) else .nan

/-- Per-signal processing of compute_reward_metrics_standalone
(complete_test.py): convert with np.array(values, dtype=float) (a
ValueError / TypeError skips the signal), then, when len > 0, emit mean,
std, min, max and count in that order.  No finiteness filtering happens,
so NaN and infinities flow into the emitted statistics.  When the array
has positive len but zero size (a list of equal-length empty lists),
np.mean and np.std return NaN under a RuntimeWarning and are stored,
after which np.min raises ValueError ("zero-size array to reduction
operation"), so the signal's min, max and count are never stored: the
mean and std entries already written remain in the report. -/
def standaloneSignal (k : String) (vs : SignalSeries) : List (String × MetricValue) :=
  match standaloneConvert vs with
  | none => []
  | some (len, elems) =>
    if len = 0 then []
    else if elems.isEmpty then
      [(metricKey k "mean", .nan), (metricKey k "std", .nan)]
    else
      [(metricKey k "mean", (rMean elems).toMetricValue),
       (metricKey k "std", rStdMetric elems),
       (metricKey k "min", (rMin elems).toMetricValue),
       (metricKey k "max", (rMax elems).toMetricValue),
       (metricKey k "count", .num len)]

/-- compute_reward_metrics_standalone of src/complete_test.py: loop over
the signal/series pairs, accumulating each signal's metrics (an empty
mapping returns the empty report, as the early-out in the source does). -/
def compute_reward_metrics_standalone : List (String × SignalSeries) → List (String × MetricValue)
  | [] => []
  | (k, vs) :: t => standaloneSignal k vs ++ compute_reward_metrics_standalone t

/-! Helper lemmas. -/

/-- Both aggregators process the input pairwise, so a report splits along
list concatenation of the input. -/
theorem compute_reward_metrics_append (L1 L2 : List (String × SignalSeries)) :
    compute_reward_metrics (L1 ++ L2)
      = compute_reward_metrics L1 ++ compute_reward_metrics L2 := by
  induction L1 with
  | nil => rfl
  | cons p t ih => cases p; simp [compute_reward_metrics, ih]

/-- Splitting lemma for the standalone aggregator. -/
theorem compute_reward_metrics_standalone_append (L1 L2 : List (String × SignalSeries)) :
    compute_reward_metrics_standalone (L1 ++ L2)
      = compute_reward_metrics_standalone L1 ++ compute_reward_metrics_standalone L2 := by
  induction L1 with
  | nil => rfl
  | cons p t ih => cases p; simp [compute_reward_metrics_standalone, ih]

/-- String append is left-cancellative. -/
theorem string_append_cancel_left (s : String) {a b : String} (h : s ++ a = s ++ b) :
    a = b := by
  have h2 := congrArg String.data h
  rw [String.data_append, String.data_append] at h2
  exact String.ext (List.append_cancel_left h2)

/-- Metric keys with the same signal name and equal full key have equal
stat names. -/
theorem metricKey_inj_right {k a b : String} (h : metricKey k a = metricKey k b) :
    a = b :=
  string_append_cancel_left ("reward/" ++ k ++ "/") h

/-- Boolean-equality form of key distinctness, for lookup computations. -/
theorem metricKey_beq_false {k a b : String} (hab : a ≠ b) :
    (metricKey k a == metricKey k b) = false :=
  beq_eq_false_iff_ne.2 fun h => hab (metricKey_inj_right h)

/-- Every element of a list is at most its qMax. -/
theorem le_qMax (qs : List ℚ) : ∀ x ∈ qs, x ≤ qMax qs := by
  induction qs with
  | nil => simp
  | cons a t ih =>
    intro x hx
    cases t with
    | nil => simp at hx; simp [qMax, hx]
    | cons b t2 =>
      rw [show qMax (a :: b :: t2) = max a (qMax (b :: t2)) from rfl]
      rcases List.mem_cons.1 hx with h | h
      · exact h ▸ le_max_left _ _
      · exact le_trans (ih x h) (le_max_right _ _)

/-- Every element of a list is at least its qMin. -/
theorem qMin_le (qs : List ℚ) : ∀ x ∈ qs, qMin qs ≤ x := by
  induction qs with
  | nil => simp
  | cons a t ih =>
    intro x hx
    cases t with
    | nil => simp at hx; simp [qMin, hx]
    | cons b t2 =>
      rw [show qMin (a :: b :: t2) = min a (qMin (b :: t2)) from rfl]
      rcases List.mem_cons.1 hx with h | h
      · exact h ▸ min_le_left _ _
      · exact le_trans (min_le_right _ _) (ih x h)

/-- The mean of a nonempty list is at most its maximum. -/
theorem qMean_le_qMax (qs : List ℚ) (h : qs ≠ []) : qMean qs ≤ qMax qs := by
  have hlen : 0 < qs.length := List.length_pos.2 h
  have hlenq : (0 : ℚ) < qs.length := by exact_mod_cast hlen
  rw [qMean, div_le_iff₀ hlenq]
  have hsum : qs.sum ≤ qs.length • qMax qs := List.sum_le_card_nsmul qs _ (le_qMax qs)
  rw [nsmul_eq_mul] at hsum
  linarith [hsum]

/-- The mean of a nonempty list is at least its minimum. -/
theorem qMin_le_qMean (qs : List ℚ) (h : qs ≠ []) : qMin qs ≤ qMean qs := by
  have hlen : 0 < qs.length := List.length_pos.2 h
  have hlenq : (0 : ℚ) < qs.length := by exact_mod_cast hlen
  rw [qMean, le_div_iff₀ hlenq]
  have hsum : qs.length • qMin qs ≤ qs.sum := List.card_nsmul_le_sum qs _ (qMin_le qs)
  rw [nsmul_eq_mul] at hsum
  linarith [hsum]

/-- A list of scalar observations built from rationals keeps exactly those
rationals as its finite values. -/
theorem finiteVals_map_fin (qs : List ℚ) :
    finiteVals (qs.map RVal.fin) = qs := by
  induction qs with
  | nil => rfl
  | cons a t ih => simp [finiteVals, RVal.toQ?] at ih ⊢; exact ih

/-- Series of finite scalars: the observation list used throughout. -/
def scalarSeries (qs : List ℚ) : SignalSeries :=
  qs.map fun x => RawObservation.scalar (RVal.fin x)

/-- Extracting the scalar payloads of a scalar series gives the values
back. -/
theorem filterMap_scalarVal (qs : List ℚ) :
    (qs.map fun x => RawObservation.scalar (RVal.fin x)).filterMap RawObservation.scalarVal?
      = qs.map RVal.fin := by
  induction qs with
  | nil => rfl
  | cons a t ih =>
    simp only [List.map_cons, List.filterMap_cons] at ih ⊢
    simpa [RawObservation.scalarVal?] using ih

/-- Converting the atoms of a scalar series gives the values back. -/
theorem filterMap_atomVal (qs : List ℚ) :
    (qs.map fun x => RawObservation.scalar (RVal.fin x)).filterMap atomVal?
      = qs.map RVal.fin := by
  induction qs with
  | nil => rfl
  | cons a t ih =>
    simp only [List.map_cons, List.filterMap_cons] at ih ⊢
    simpa [atomVal?] using ih

/-- Flattening a nonempty series of finite scalars succeeds and returns
the scalars. -/
theorem py1Flatten_scalarSeries (qs : List ℚ) (h : qs ≠ []) :
    py1Flatten (scalarSeries qs) = some (qs.map RVal.fin) := by
  cases qs with
  | cons a t =>
    have hall : (RawObservation.scalar (RVal.fin a) ::
        t.map fun x => RawObservation.scalar (RVal.fin x)).all RawObservation.isScalar = true := by
      simp [RawObservation.isScalar, List.all_map, Function.comp]
    have hfm := filterMap_scalarVal (a :: t)
    simp only [List.map_cons] at hfm
    simp only [scalarSeries, List.map_cons]
    rw [py1Flatten, hall]
    simp only [if_true, hfm, List.map_cons]
  | nil => exact absurd rfl h

/-- Per-signal result of compute_reward_metrics on a nonempty series of
finite scalars. -/
theorem py1Signal_scalarSeries (k : String) (qs : List ℚ) (h : qs ≠ []) :
    py1Signal k (scalarSeries qs)
      = [(metricKey k "mean", .num (qMean qs)),
         (metricKey k "max", .num (qMax qs)),
         (metricKey k "min", .num (qMin qs))]
        ++ (if 1 < qs.length then [(metricKey k "std", .sqrtOf (qVar qs))] else []) := by
  have hne : (qs.map RVal.fin).isEmpty = false := by
    cases qs with
    | nil => exact absurd rfl h
    | cons a t => rfl
  have hne2 : qs.isEmpty = false := by
    cases qs with
    | nil => exact absurd rfl h
    | cons a t => rfl
  simp only [py1Signal, py1Flatten_scalarSeries qs h, hne, Bool.false_eq_true, if_false,
    finiteVals_map_fin, hne2, List.length_map]

/-- Conversion step of the standalone aggregator on a series of finite
scalars. -/
theorem standaloneConvert_scalarSeries (qs : List ℚ) :
    standaloneConvert (scalarSeries qs) = some (qs.length, qs.map RVal.fin) := by
  have hall : (scalarSeries qs).all (fun o => (atomVal? o).isSome) = true := by
    simp [scalarSeries, List.all_map, Function.comp, atomVal?]
  rw [standaloneConvert, hall]
  simp only [if_true, filterMap_atomVal, scalarSeries, List.length_map]

/-- On all-finite values, rSum is the finite sum. -/
theorem rSum_map_fin (qs : List ℚ) :
    rSum (qs.map RVal.fin) = .fin qs.sum := by
  rw [rSum]
  have h1 : (qs.map RVal.fin).any RVal.isNan = false := by
    simp [List.any_map, Function.comp, RVal.isNan]
  have h2 : (qs.map RVal.fin).any RVal.isInf = false := by
    simp [List.any_map, Function.comp, RVal.isInf]
  have h3 : (qs.map RVal.fin).any RVal.isNinf = false := by
    simp [List.any_map, Function.comp, RVal.isNinf]
  rw [h1, h2, h3]
  simp [finiteVals_map_fin]

/-- Per-signal result of the standalone aggregator on a nonempty series of
finite scalars: mean, std, min, max and count, with std always present. -/
theorem standaloneSignal_scalarSeries (k : String) (qs : List ℚ) (h : qs ≠ []) :
    standaloneSignal k (scalarSeries qs)
      = [(metricKey k "mean", .num (qMean qs)),
         (metricKey k "std", .sqrtOf (qVar qs)),
         (metricKey k "min", .num (qMin qs)),
         (metricKey k "max", .num (qMax qs)),
         (metricKey k "count", .num qs.length)] := by
  have hlen : qs.length ≠ 0 := fun h0 => h (List.length_eq_zero.1 h0)
  have hne : (qs.map RVal.fin).isEmpty = false := by
    cases qs with
    | nil => exact absurd rfl h
    | cons a t => rfl
  have hmean : rMean (qs.map RVal.fin) = .fin (qMean qs) := by
    rw [rMean, rSum_map_fin]
    simp [qMean]
  have hstd : rStdMetric (qs.map RVal.fin) = .sqrtOf (qVar qs) := by
    rw [rStdMetric]
    have : (qs.map RVal.fin).all RVal.isFinite = true := by
      simp [List.all_map, Function.comp, RVal.isFinite]
    rw [this]
    simp [finiteVals_map_fin]
  have hfvne : (finiteVals (qs.map RVal.fin)).isEmpty = false := by
    rw [finiteVals_map_fin]; cases qs with
    | nil => exact absurd rfl h
    | cons a t => rfl
  have hmin : rMin (qs.map RVal.fin) = .fin (qMin qs) := by
    rw [rMin]
    have h1 : (qs.map RVal.fin).any RVal.isNan = false := by
      simp [List.any_map, Function.comp, RVal.isNan]
    have h3 : (qs.map RVal.fin).any RVal.isNinf = false := by
      simp [List.any_map, Function.comp, RVal.isNinf]
    rw [h1, h3, hfvne]
    simp [finiteVals_map_fin]
  have hmax : rMax (qs.map RVal.fin) = .fin (qMax qs) := by
    rw [rMax]
    have h1 : (qs.map RVal.fin).any RVal.isNan = false := by
      simp [List.any_map, Function.comp, RVal.isNan]
    have h2 : (qs.map RVal.fin).any RVal.isInf = false := by
      simp [List.any_map, Function.comp, RVal.isInf]
    rw [h1, h2, hfvne]
    simp [finiteVals_map_fin]
  simp only [standaloneSignal, standaloneConvert_scalarSeries, hlen, if_false, hne,
    Bool.false_eq_true, hmean, hstd, hmin, hmax, RVal.toMetricValue]

/-- Concatenation of a list of lists (for stating one-level flattening). -/
def joinVals : List (List RVal) → List RVal
  | [] => []
  | xs :: t => xs ++ joinVals t

/-- Extracting the scalar payloads of a series of scalar observations. -/
theorem filterMap_scalarVal_rvals (vs : List RVal) :
    (vs.map RawObservation.scalar).filterMap RawObservation.scalarVal? = vs := by
  induction vs with
  | nil => rfl
  | cons a t ih =>
    simp only [List.map_cons, List.filterMap_cons] at ih ⊢
    simpa [RawObservation.scalarVal?] using ih

/-- Flattening a nonempty series of scalar observations returns the
values. -/
theorem py1Flatten_rvals (vs : List RVal) (h : vs ≠ []) :
    py1Flatten (vs.map RawObservation.scalar) = some vs := by
  cases vs with
  | cons a t =>
    have hall : (RawObservation.scalar a ::
        t.map RawObservation.scalar).all RawObservation.isScalar = true := by
      simp [RawObservation.isScalar, List.all_map, Function.comp]
    have hfm := filterMap_scalarVal_rvals (a :: t)
    simp only [List.map_cons] at hfm
    simp only [List.map_cons]
    rw [py1Flatten, hall]
    simp only [if_true, hfm]
  | nil => exact absurd rfl h

/-- The one-level list comprehension on a series of nested observations
is the concatenation of the inner lists. -/
theorem concatInner_map_nested (xss : List (List RVal)) :
    concatInner (xss.map RawObservation.nested) = joinVals xss := by
  induction xss with
  | nil => rfl
  | cons xs t ih => simp [concatInner, RawObservation.innerList, joinVals, ih]

/-- Flattening a nonempty series of nested observations returns the
concatenation of the inner lists. -/
theorem py1Flatten_nested (xss : List (List RVal)) (h : xss ≠ []) :
    py1Flatten (xss.map RawObservation.nested) = some (joinVals xss) := by
  cases xss with
  | cons xs t =>
    have hall : (RawObservation.nested xs ::
        t.map RawObservation.nested).all RawObservation.isNested = true := by
      simp [RawObservation.isNested, List.all_map, Function.comp]
    have hci := concatInner_map_nested (xs :: t)
    simp only [List.map_cons] at hci
    simp only [List.map_cons]
    rw [py1Flatten, hall]
    simp only [if_true, hci]
  | nil => exact absurd rfl h

/-- A series of strings is never numeric for compute_reward_metrics. -/
theorem py1Signal_strings (k : String) (ws : List String) :
    py1Signal k (ws.map RawObservation.str) = [] := by
  cases ws with
  | nil => rfl
  | cons w t => rfl

/-- A series of strings none of which parses as a float is skipped by the
standalone aggregator (np.array(values, dtype=float) raises ValueError). -/
theorem standaloneSignal_strings (k : String) (ws : List String)
    (h : ∀ w ∈ ws, pyFloat? w = none) :
    standaloneSignal k (ws.map RawObservation.str) = [] := by
  cases ws with
  | nil => rfl
  | cons w t =>
    have hw : pyFloat? w = none := h w (List.mem_cons_self w t)
    have hconv : standaloneConvert ((w :: t).map RawObservation.str) = none := by
      rw [standaloneConvert]
      have h1 : ((w :: t).map RawObservation.str).all
          (fun o => (atomVal? o).isSome) = false := by
        simp [List.map_cons, List.all_cons, atomVal?, hw]
      have h2 : ((w :: t).map RawObservation.str).all RawObservation.isNested = false := by
        simp [List.map_cons, List.all_cons, RawObservation.isNested]
      rw [h1, h2]
      simp
    rw [standaloneSignal, hconv]

/-! Claims. -/

/-- Claim C1 (corrected).  Both aggregators process each signal
independently, so the report always decomposes signal by signal: whatever
happens to one signal, the metrics of every other signal are computed
unchanged, and neither function propagates an exception to the caller
(both are total).  A failing signal is however not always omitted
entirely: compute_reward_metrics drops a failing signal completely (a
string series, shown here, yields nothing, and so does a ragged nested
series in the standalone variant), but when the standalone variant
converts a list of equal-length empty lists, np.mean and np.std return
NaN and are stored before np.min raises, so the NaN mean/std entries of
the failing signal remain in the report. -/
theorem claim_C1 (L1 L2 : List (String × SignalSeries)) (k : String) (s : SignalSeries) :
    compute_reward_metrics (L1 ++ (k, s) :: L2)
      = compute_reward_metrics L1 ++ py1Signal k s ++ compute_reward_metrics L2
    ∧ compute_reward_metrics_standalone (L1 ++ (k, s) :: L2)
      = compute_reward_metrics_standalone L1 ++ standaloneSignal k s
          ++ compute_reward_metrics_standalone L2
    ∧ py1Signal k [.str "hello", .str "world"] = []
    ∧ standaloneSignal k [.nested [.fin 1], .nested []] = []
    ∧ standaloneSignal k [.nested [], .nested []]
      = [(metricKey k "mean", .nan), (metricKey k "std", .nan)] := by
  refine ⟨?_, ?_, rfl, rfl, rfl⟩
  · rw [compute_reward_metrics_append]
    show _ ++ compute_reward_metrics ((k, s) :: L2) = _
    rw [show compute_reward_metrics ((k, s) :: L2)
        = py1Signal k s ++ compute_reward_metrics L2 from rfl, List.append_assoc]
  · rw [compute_reward_metrics_standalone_append]
    show _ ++ compute_reward_metrics_standalone ((k, s) :: L2) = _
    rw [show compute_reward_metrics_standalone ((k, s) :: L2)
        = standaloneSignal k s ++ compute_reward_metrics_standalone L2 from rfl,
      List.append_assoc]

/-- Counterexample to claim C1 as stated: in the standalone variant the
signal "empty2d" (a list of equal-length empty lists) suffers a per-signal
failure (np.min raises ValueError on the zero-size array, caught by the
except clause), yet it is not omitted from the report: its mean and std
entries, both NaN, were stored before the failure. -/
theorem claim_C1_cex :
    compute_reward_metrics_standalone
      [("empty2d", [.nested [], .nested []]), ("good", [.scalar (.fin 1)])]
    = [(metricKey "empty2d" "mean", .nan), (metricKey "empty2d" "std", .nan),
       (metricKey "good" "mean", .num 1), (metricKey "good" "std", .sqrtOf 0),
       (metricKey "good" "min", .num 1), (metricKey "good" "max", .num 1),
       (metricKey "good" "count", .num 1)]
    ∧ List.lookup (metricKey "empty2d" "mean")
        (compute_reward_metrics_standalone
          [("empty2d", [.nested [], .nested []]), ("good", [.scalar (.fin 1)])])
      = some .nan := by
  constructor
  · norm_num +decide [compute_reward_metrics_standalone, standaloneSignal,
      standaloneConvert, atomVal?, sameInnerLen, concatInner, RawObservation.innerList,
      RawObservation.isNested, rMean, rSum, rMax, rMin, rStdMetric, finiteVals,
      RVal.toQ?, RVal.isNan, RVal.isInf, RVal.isNinf, RVal.isFinite,
      RVal.toMetricValue, List.filterMap_cons, List.filterMap_nil, List.isEmpty,
      qMean, qMax, qMin, qVar, max_def, min_def]
  · decide

/-- Claim C3 (corrected).  A single finite element x yields
mean = min = max = x in both implementations, count = 1 where count is
emitted (only the standalone variant emits it), and compute_reward_metrics
emits no std key; but the standalone variant does emit a std key for the
single-element series, with value sqrt 0 = 0.0. -/
theorem claim_C3 (k : String) (x : ℚ) :
    compute_reward_metrics [(k, [.scalar (.fin x)])]
      = [(metricKey k "mean", .num x), (metricKey k "max", .num x),
         (metricKey k "min", .num x)]
    ∧ compute_reward_metrics_standalone [(k, [.scalar (.fin x)])]
      = [(metricKey k "mean", .num x), (metricKey k "std", .sqrtOf 0),
         (metricKey k "min", .num x), (metricKey k "max", .num x),
         (metricKey k "count", .num 1)] := by
  have hs : scalarSeries [x] = [RawObservation.scalar (RVal.fin x)] := rfl
  have h1 := py1Signal_scalarSeries k [x] (by simp)
  have h2 := standaloneSignal_scalarSeries k [x] (by simp)
  rw [hs] at h1 h2
  have hmean : qMean [x] = x := by simp [qMean]
  have hmax : qMax [x] = x := rfl
  have hmin : qMin [x] = x := rfl
  have hvar : qVar [x] = 0 := by simp [qVar, qMean]
  rw [hmean, hmax, hmin, hvar] at h1 h2
  constructor
  · show py1Signal k [RawObservation.scalar (RVal.fin x)] ++ [] = _
    rw [h1]
    simp
  · show standaloneSignal k [RawObservation.scalar (RVal.fin x)] ++ [] = _
    rw [h2]
    simp

/-- Counterexample to claim C3 as stated: the claim promises no std key
for a single-element series, but the standalone implementation emits one
(float(np.std([0.42])) = 0.0). -/
theorem claim_C3_cex :
    List.lookup (metricKey "single_value" "std")
      (compute_reward_metrics_standalone [("single_value", [.scalar (.fin (21/50))])])
      = some (.sqrtOf 0) := by
  norm_num +decide [compute_reward_metrics_standalone, standaloneSignal, standaloneConvert,
    atomVal?, rMean, rSum, rMax, rMin, rStdMetric, finiteVals,
    RVal.toQ?, RVal.isNan, RVal.isInf, RVal.isNinf, RVal.isFinite,
    RVal.toMetricValue, List.filterMap_cons, List.filterMap_nil, List.isEmpty,
    qMean, qMax, qMin, qVar, metricKey, List.lookup]

/-- Claim C5 (confirmed, for compute_reward_metrics, the implementation
the claim cites).  A series of nested numeric sequences is flattened one
level before statistics: the report is exactly the report of the series of
all inner scalars, so the number of values entering every statistic is the
total number of inner scalars, not the outer length.  On the spec's
example [[0.1, 0.2], [0.3, 0.4]] the four scalars yield mean 1/4, max 2/5,
min 1/10 and a std key (four values > 1), with variance 1/80. -/
theorem claim_C5 (k : String) (xss : List (List RVal)) :
    compute_reward_metrics [(k, xss.map RawObservation.nested)]
      = compute_reward_metrics [(k, (joinVals xss).map RawObservation.scalar)]
    ∧ compute_reward_metrics
        [("nested_scores", [.nested [.fin (1/10), .fin (2/10)],
                            .nested [.fin (3/10), .fin (4/10)]])]
      = [(metricKey "nested_scores" "mean", .num (1/4)),
         (metricKey "nested_scores" "max", .num (2/5)),
         (metricKey "nested_scores" "min", .num (1/10)),
         (metricKey "nested_scores" "std", .sqrtOf (1/80))] := by
  constructor
  · cases xss with
    | nil => rfl
    | cons xs t =>
      by_cases hj : joinVals (xs :: t) = []
      · have hL := py1Flatten_nested (xs :: t) (by simp)
        rw [hj] at hL
        show py1Signal k ((xs :: t).map RawObservation.nested) ++ []
          = py1Signal k ((joinVals (xs :: t)).map RawObservation.scalar) ++ []
        rw [hj, py1Signal, hL]
        rfl
      · have hL := py1Flatten_nested (xs :: t) (by simp)
        have hR := py1Flatten_rvals (joinVals (xs :: t)) hj
        show py1Signal k ((xs :: t).map RawObservation.nested) ++ []
          = py1Signal k ((joinVals (xs :: t)).map RawObservation.scalar) ++ []
        rw [py1Signal, py1Signal, hL, hR]
  · norm_num +decide [compute_reward_metrics, py1Signal, py1Flatten, concatInner,
      RawObservation.innerList, RawObservation.isNested, finiteVals, RVal.toQ?,
      List.filterMap_cons, List.filterMap_nil, List.isEmpty,
      qMean, qMax, qMin, qVar, max_def, min_def]

/-- Claim C9 (confirmed).  An empty series contributes nothing in either
implementation: it can be removed from the input without changing the
report, and on its own it yields the empty report. -/
theorem claim_C9 (L1 L2 : List (String × SignalSeries)) (k : String) :
    compute_reward_metrics (L1 ++ (k, ([] : SignalSeries)) :: L2)
      = compute_reward_metrics (L1 ++ L2)
    ∧ compute_reward_metrics_standalone (L1 ++ (k, ([] : SignalSeries)) :: L2)
      = compute_reward_metrics_standalone (L1 ++ L2)
    ∧ compute_reward_metrics [(k, ([] : SignalSeries))] = []
    ∧ compute_reward_metrics_standalone [(k, ([] : SignalSeries))] = [] := by
  refine ⟨?_, ?_, rfl, rfl⟩
  · rw [compute_reward_metrics_append, compute_reward_metrics_append]
    show _ ++ compute_reward_metrics ((k, ([] : SignalSeries)) :: L2) = _
    rw [show compute_reward_metrics ((k, ([] : SignalSeries)) :: L2)
        = py1Signal k [] ++ compute_reward_metrics L2 from rfl]
    rfl
  · rw [compute_reward_metrics_standalone_append, compute_reward_metrics_standalone_append]
    show _ ++ compute_reward_metrics_standalone ((k, ([] : SignalSeries)) :: L2) = _
    rw [show compute_reward_metrics_standalone ((k, ([] : SignalSeries)) :: L2)
        = standaloneSignal k [] ++ compute_reward_metrics_standalone L2 from rfl]
    rfl

/-- A one-signal input yields exactly the signal's metrics. -/
theorem compute_single (k : String) (s : SignalSeries) :
    compute_reward_metrics [(k, s)] = py1Signal k s := by
  show py1Signal k s ++ [] = py1Signal k s
  exact List.append_nil _

/-- A one-signal input yields exactly the signal's metrics (standalone). -/
theorem compute_standalone_single (k : String) (s : SignalSeries) :
    compute_reward_metrics_standalone [(k, s)] = standaloneSignal k s := by
  show standaloneSignal k s ++ [] = standaloneSignal k s
  exact List.append_nil _

/-- Removing a signal the first implementation skips leaves its report
unchanged. -/
theorem compute_remove_skipped (L1 L2 : List (String × SignalSeries)) (k : String)
    (s : SignalSeries) (hs : py1Signal k s = []) :
    compute_reward_metrics (L1 ++ (k, s) :: L2) = compute_reward_metrics (L1 ++ L2) := by
  rw [compute_reward_metrics_append, compute_reward_metrics_append]
  show _ ++ (py1Signal k s ++ compute_reward_metrics L2) = _
  rw [hs, List.nil_append]

/-- Removing a signal the standalone implementation skips leaves its
report unchanged. -/
theorem compute_standalone_remove_skipped (L1 L2 : List (String × SignalSeries)) (k : String)
    (s : SignalSeries) (hs : standaloneSignal k s = []) :
    compute_reward_metrics_standalone (L1 ++ (k, s) :: L2)
      = compute_reward_metrics_standalone (L1 ++ L2) := by
  rw [compute_reward_metrics_standalone_append, compute_reward_metrics_standalone_append]
  show _ ++ (standaloneSignal k s ++ compute_reward_metrics_standalone L2) = _
  rw [hs, List.nil_append]

/-- Looking a stat up steps over a cell carrying a different stat of the
same signal. -/
theorem lookup_metricKey_skip {a b : String} (hab : a ≠ b) (k : String) (v : MetricValue)
    (rest : List (String × MetricValue)) :
    List.lookup (metricKey k a) ((metricKey k b, v) :: rest)
      = List.lookup (metricKey k a) rest := by
  simp [List.lookup, metricKey_beq_false hab]

/-- Looking a stat up finds the cell carrying it. -/
theorem lookup_metricKey_head (k a : String) (v : MetricValue)
    (rest : List (String × MetricValue)) :
    List.lookup (metricKey k a) ((metricKey k a, v) :: rest) = some v := by
  simp [List.lookup]

/-- Report cells carrying different stats of the same signal are
distinct. -/
theorem metricKey_pair_ne {k a b : String} (hab : a ≠ b) (v w : MetricValue) :
    (metricKey k a, v) ≠ (metricKey k b, w) := fun h =>
  hab (metricKey_inj_right (congrArg Prod.fst h))

/-- What the amended claim C2 asserts of a signal k holding a nonempty
series of finite scalars qs: both implementations emit
min <= mean <= max; compute_reward_metrics emits no count and emits std
exactly when more than one value is present; the standalone variant emits
count = n and always emits std. -/
def C2Conclusion (k : String) (qs : List ℚ) : Prop :=
  qMin qs ≤ qMean qs ∧ qMean qs ≤ qMax qs
  ∧ List.lookup (metricKey k "mean") (compute_reward_metrics [(k, scalarSeries qs)])
      = some (.num (qMean qs))
  ∧ List.lookup (metricKey k "max") (compute_reward_metrics [(k, scalarSeries qs)])
      = some (.num (qMax qs))
  ∧ List.lookup (metricKey k "min") (compute_reward_metrics [(k, scalarSeries qs)])
      = some (.num (qMin qs))
  ∧ (∀ v : MetricValue, (metricKey k "count", v) ∉ compute_reward_metrics [(k, scalarSeries qs)])
  ∧ List.lookup (metricKey k "std") (compute_reward_metrics [(k, scalarSeries qs)])
      = (if 1 < qs.length then some (.sqrtOf (qVar qs)) else none)
  ∧ List.lookup (metricKey k "count") (compute_reward_metrics_standalone [(k, scalarSeries qs)])
      = some (.num qs.length)
  ∧ List.lookup (metricKey k "std") (compute_reward_metrics_standalone [(k, scalarSeries qs)])
      = some (.sqrtOf (qVar qs))

/-- Claim C2 (corrected).  For every nonempty all-finite scalar series the
emitted statistics satisfy min <= mean <= max in both implementations, but
the count and std clauses of the claim hold in neither: the cited
compute_reward_metrics emits no count metric at all and emits std iff
n > 1, while the standalone variant emits count = n but emits std for
every n, including n = 1. -/
theorem claim_C2 (k : String) (qs : List ℚ) (h : qs ≠ []) : C2Conclusion k qs := by
  rw [C2Conclusion, compute_single, compute_standalone_single,
    py1Signal_scalarSeries k qs h, standaloneSignal_scalarSeries k qs h]
  refine ⟨qMin_le_qMean qs h, qMean_le_qMax qs h, ?_, ?_, ?_, ?_, ?_, ?_, ?_⟩
  · rw [List.cons_append, lookup_metricKey_head]
  · rw [List.cons_append, lookup_metricKey_skip (show "max" ≠ "mean" by decide),
      List.cons_append, lookup_metricKey_head]
  · rw [List.cons_append, lookup_metricKey_skip (show "min" ≠ "mean" by decide),
      List.cons_append, lookup_metricKey_skip (show "min" ≠ "max" by decide),
      List.cons_append, lookup_metricKey_head]
  · intro v hv
    rcases List.mem_append.1 hv with hv1 | hv2
    · rcases List.mem_cons.1 hv1 with heq | hv1
      · exact metricKey_pair_ne (show "count" ≠ "mean" by decide) _ _ heq
      rcases List.mem_cons.1 hv1 with heq | hv1
      · exact metricKey_pair_ne (show "count" ≠ "max" by decide) _ _ heq
      rcases List.mem_cons.1 hv1 with heq | hv1
      · exact metricKey_pair_ne (show "count" ≠ "min" by decide) _ _ heq
      · exact List.not_mem_nil _ hv1
    · by_cases hl : 1 < qs.length
      · rw [if_pos hl] at hv2
        rcases List.mem_cons.1 hv2 with heq | hv2
        · exact metricKey_pair_ne (show "count" ≠ "std" by decide) _ _ heq
        · exact List.not_mem_nil _ hv2
      · rw [if_neg hl] at hv2
        exact List.not_mem_nil _ hv2
  · by_cases hl : 1 < qs.length
    · rw [if_pos hl, if_pos hl, List.cons_append,
        lookup_metricKey_skip (show "std" ≠ "mean" by decide),
        List.cons_append, lookup_metricKey_skip (show "std" ≠ "max" by decide),
        List.cons_append, lookup_metricKey_skip (show "std" ≠ "min" by decide),
        List.nil_append, lookup_metricKey_head]
    · rw [if_neg hl, if_neg hl, List.cons_append,
        lookup_metricKey_skip (show "std" ≠ "mean" by decide),
        List.cons_append, lookup_metricKey_skip (show "std" ≠ "max" by decide),
        List.cons_append, lookup_metricKey_skip (show "std" ≠ "min" by decide),
        List.nil_append, List.lookup_nil]
  · rw [lookup_metricKey_skip (show "count" ≠ "mean" by decide),
      lookup_metricKey_skip (show "count" ≠ "std" by decide),
      lookup_metricKey_skip (show "count" ≠ "min" by decide),
      lookup_metricKey_skip (show "count" ≠ "max" by decide),
      lookup_metricKey_head]
  · rw [lookup_metricKey_skip (show "std" ≠ "mean" by decide), lookup_metricKey_head]

/-- Witness for claim C2 at the signal "fluency" with values
[0.8, 0.9]. -/
theorem claim_C2_witness :
    (([4/5, 9/10] : List ℚ) ≠ []) ∧ C2Conclusion "fluency" [4/5, 9/10] :=
  ⟨by simp, claim_C2 "fluency" [4/5, 9/10] (by simp)⟩

/-- Counterexample to claim C2 as stated, at the single-element series
[0.42]: compute_reward_metrics emits no count metric (the claim asks for
count = 1), and the standalone variant emits a std key although n = 1
(the claim asks for std iff n > 1). -/
theorem claim_C2_cex :
    List.lookup (metricKey "single_value" "count")
      (compute_reward_metrics [("single_value", [.scalar (.fin (21/50))])]) = none
    ∧ List.lookup (metricKey "single_value" "std")
        (compute_reward_metrics_standalone [("single_value", [.scalar (.fin (21/50))])])
      ≠ none := by
  constructor
  · decide
  · norm_num +decide [compute_reward_metrics_standalone, standaloneSignal, standaloneConvert,
      atomVal?, rMean, rSum, rMax, rMin, rStdMetric, finiteVals,
      RVal.toQ?, RVal.isNan, RVal.isInf, RVal.isNinf, RVal.isFinite,
      RVal.toMetricValue, List.filterMap_cons, List.filterMap_nil, List.isEmpty,
      metricKey, List.lookup]

/-- Claim C6 (corrected).  A series of strings that do not parse as
numbers is skipped by both implementations: it can be removed without
changing the report, compute_reward_metrics skips every all-string series
outright (numpy gives such arrays a non-numeric string dtype), and the
standalone variant emits nothing for the series when no element converts.
The claim's universal statement over all non-numeric (string) series
fails, however, for the standalone variant on strings that parse as
decimal numbers: np.array(values, dtype=float) converts them, and metrics
are emitted (see the counterexample). -/
theorem claim_C6 (L1 L2 : List (String × SignalSeries)) (k : String) (ws : List String)
    (h : ∀ w ∈ ws, pyFloat? w = none) :
    compute_reward_metrics (L1 ++ (k, ws.map RawObservation.str) :: L2)
      = compute_reward_metrics (L1 ++ L2)
    ∧ compute_reward_metrics_standalone (L1 ++ (k, ws.map RawObservation.str) :: L2)
      = compute_reward_metrics_standalone (L1 ++ L2)
    ∧ (∀ ws2 : List String, compute_reward_metrics [(k, ws2.map RawObservation.str)] = [])
    ∧ compute_reward_metrics_standalone [(k, ws.map RawObservation.str)] = [] :=
  ⟨compute_remove_skipped L1 L2 k _ (py1Signal_strings k ws),
   compute_standalone_remove_skipped L1 L2 k _ (standaloneSignal_strings k ws h),
   fun ws2 => by rw [compute_single, py1Signal_strings],
   by rw [compute_standalone_single, standaloneSignal_strings k ws h]⟩

/-- Witness for claim C6 at the spec's series ["hello", "world"] beside a
valid numeric signal. -/
theorem claim_C6_witness :
    (∀ w ∈ (["hello", "world"] : List String), pyFloat? w = none)
    ∧ (compute_reward_metrics
          ([("ok", scalarSeries [1])] ++
            ("string_data", (["hello", "world"] : List String).map RawObservation.str) :: [])
        = compute_reward_metrics ([("ok", scalarSeries [1])] ++ [])
      ∧ compute_reward_metrics_standalone
          ([("ok", scalarSeries [1])] ++
            ("string_data", (["hello", "world"] : List String).map RawObservation.str) :: [])
        = compute_reward_metrics_standalone ([("ok", scalarSeries [1])] ++ [])
      ∧ (∀ ws2 : List String,
          compute_reward_metrics [("string_data", ws2.map RawObservation.str)] = [])
      ∧ compute_reward_metrics_standalone
          [("string_data", (["hello", "world"] : List String).map RawObservation.str)] = []) :=
  ⟨by decide, claim_C6 [("ok", scalarSeries [1])] [] "string_data" ["hello", "world"] (by decide)⟩

/-- Counterexample to claim C6 as stated: the strings "1.5" and "2.5" are
non-numeric values (a series of strings), yet the standalone
implementation emits metrics for the signal, because
np.array(values, dtype=float) parses them: the report is not empty and
carries a count of 2 for the signal. -/
theorem claim_C6_cex :
    compute_reward_metrics_standalone [("string_data", [.str "1.5", .str "2.5"])] ≠ []
    ∧ List.lookup (metricKey "string_data" "count")
        (compute_reward_metrics_standalone [("string_data", [.str "1.5", .str "2.5"])])
      = some (.num 2) := by
  constructor
  · simp +decide [compute_reward_metrics_standalone, standaloneSignal, standaloneConvert,
      atomVal?, List.filterMap_cons, List.filterMap_nil, List.isEmpty]
  · norm_num +decide [compute_reward_metrics_standalone, standaloneSignal, standaloneConvert,
      atomVal?, List.filterMap_cons, List.filterMap_nil, List.isEmpty, metricKey, List.lookup]

/-- Claim C10 (corrected).  The two implementations do not return equal
reports (see the counterexample); what holds is agreement on the values
of mean, min, max and (when compute_reward_metrics emits it, n > 1) std
for nonempty all-finite scalar series, as the two explicit report shapes
show; they differ in the std and count keys: the standalone variant
always emits std and count, compute_reward_metrics emits std only for
n > 1 and never count, and the key orders differ. -/
theorem claim_C10 (k : String) (qs : List ℚ) (h : qs ≠ []) :
    compute_reward_metrics [(k, scalarSeries qs)]
      = [(metricKey k "mean", .num (qMean qs)), (metricKey k "max", .num (qMax qs)),
         (metricKey k "min", .num (qMin qs))]
        ++ (if 1 < qs.length then [(metricKey k "std", .sqrtOf (qVar qs))] else [])
    ∧ compute_reward_metrics_standalone [(k, scalarSeries qs)]
      = [(metricKey k "mean", .num (qMean qs)), (metricKey k "std", .sqrtOf (qVar qs)),
         (metricKey k "min", .num (qMin qs)), (metricKey k "max", .num (qMax qs)),
         (metricKey k "count", .num qs.length)] :=
  ⟨by rw [compute_single, py1Signal_scalarSeries k qs h],
   by rw [compute_standalone_single, standaloneSignal_scalarSeries k qs h]⟩

/-- Witness for claim C10 at the signal "relevance" with values
[0.5, 0.75]. -/
theorem claim_C10_witness :
    (([1/2, 3/4] : List ℚ) ≠ [])
    ∧ (compute_reward_metrics [("relevance", scalarSeries [1/2, 3/4])]
        = [(metricKey "relevance" "mean", .num (qMean [1/2, 3/4])),
           (metricKey "relevance" "max", .num (qMax [1/2, 3/4])),
           (metricKey "relevance" "min", .num (qMin [1/2, 3/4]))]
          ++ (if 1 < ([1/2, 3/4] : List ℚ).length then
              [(metricKey "relevance" "std", .sqrtOf (qVar [1/2, 3/4]))] else [])
      ∧ compute_reward_metrics_standalone [("relevance", scalarSeries [1/2, 3/4])]
        = [(metricKey "relevance" "mean", .num (qMean [1/2, 3/4])),
           (metricKey "relevance" "std", .sqrtOf (qVar [1/2, 3/4])),
           (metricKey "relevance" "min", .num (qMin [1/2, 3/4])),
           (metricKey "relevance" "max", .num (qMax [1/2, 3/4])),
           (metricKey "relevance" "count", .num ([1/2, 3/4] : List ℚ).length)]) :=
  ⟨by simp, claim_C10 "relevance" [1/2, 3/4] (by simp)⟩

/-- Counterexample to claim C10 as stated: on the single-element input
the two implementations return different reports (three entries against
five). -/
theorem claim_C10_cex :
    compute_reward_metrics [("x", [.scalar (.fin (21/50))])]
      ≠ compute_reward_metrics_standalone [("x", [.scalar (.fin (21/50))])] := by
  intro h
  have h1 : (compute_reward_metrics [("x", [.scalar (.fin (21/50))])]).length = 3 := by
    simp +decide [compute_reward_metrics, py1Signal, py1Flatten,
      RawObservation.isScalar, RawObservation.scalarVal?, finiteVals, RVal.toQ?,
      List.filterMap_cons, List.filterMap_nil, List.isEmpty]
  have h2 : (compute_reward_metrics_standalone [("x", [.scalar (.fin (21/50))])]).length = 5 := by
    simp +decide [compute_reward_metrics_standalone, standaloneSignal, standaloneConvert,
      atomVal?, List.filterMap_cons, List.filterMap_nil, List.isEmpty]
  rw [h, h2] at h1
  exact absurd h1 (by decide)

/-- Filtering to the finite values first does not change the finite
values. -/
theorem finiteVals_filter (vs : List RVal) :
    finiteVals (vs.filter RVal.isFinite) = finiteVals vs := by
  induction vs with
  | nil => rfl
  | cons a t ih =>
    cases a with
    | fin q => simpa [finiteVals, RVal.isFinite, RVal.toQ?] using ih
    | nan => simpa [finiteVals, RVal.isFinite, RVal.toQ?] using ih
    | inf => simpa [finiteVals, RVal.isFinite, RVal.toQ?] using ih
    | ninf => simpa [finiteVals, RVal.isFinite, RVal.toQ?] using ih

/-- compute_reward_metrics is insensitive to the non-finite elements of a
scalar series: dropping them beforehand yields the same report (the
implementation keeps values_array[np.isfinite(values_array)]). -/
theorem py1_filter_finite (k : String) (vs : List RVal) :
    compute_reward_metrics [(k, vs.map RawObservation.scalar)]
      = compute_reward_metrics [(k, (vs.filter RVal.isFinite).map RawObservation.scalar)] := by
  rw [compute_single, compute_single]
  cases vs with
  | nil => rfl
  | cons a t =>
    have hL : py1Flatten ((a :: t).map RawObservation.scalar) = some (a :: t) :=
      py1Flatten_rvals _ (by simp)
    cases hf : (a :: t).filter RVal.isFinite with
    | nil =>
      have hfv : finiteVals (a :: t) = [] := by
        rw [← finiteVals_filter (a :: t), hf]; rfl
      simp only [py1Signal, hL, List.isEmpty_cons, Bool.false_eq_true, if_false, hfv,
        List.isEmpty_nil, if_true, List.map_nil]
      rfl
    | cons b u =>
      have hR : py1Flatten ((b :: u).map RawObservation.scalar) = some (b :: u) :=
        py1Flatten_rvals _ (by simp)
      have hfv : finiteVals (a :: t) = finiteVals (b :: u) := by
        rw [← finiteVals_filter (a :: t), hf]
      simp only [py1Signal, hL, hR, hfv, List.isEmpty_cons, Bool.false_eq_true, if_false]

/-- Every value compute_reward_metrics emits for one signal is a finite
number or a square root, never NaN or an infinity. -/
theorem py1Signal_finiteVals (k : String) (vs : SignalSeries) :
    (py1Signal k vs).all (fun p => p.2.isFiniteVal) = true := by
  cases hpf : py1Flatten vs with
  | none => simp [py1Signal, hpf]
  | some flat =>
    simp only [py1Signal, hpf]
    by_cases h1 : flat.isEmpty = true
    · simp [h1]
    · rw [if_neg h1]
      by_cases h2 : (finiteVals flat).isEmpty = true
      · simp [h2]
      · rw [if_neg h2]
        by_cases h3 : 1 < (finiteVals flat).length
        · simp [h3, MetricValue.isFiniteVal]
        · simp [h3, MetricValue.isFiniteVal]

/-- Every value compute_reward_metrics emits is finite or a square root,
never NaN or an infinity. -/
theorem compute_all_finite (L : List (String × SignalSeries)) :
    (compute_reward_metrics L).all (fun p => p.2.isFiniteVal) = true := by
  induction L with
  | nil => rfl
  | cons q t ih =>
    obtain ⟨k, vs⟩ := q
    show (py1Signal k vs ++ compute_reward_metrics t).all _ = true
    rw [List.all_append, py1Signal_finiteVals, ih]
    rfl

/-- Claim C4 (corrected).  For compute_reward_metrics everything the claim
asks holds, except that no count key exists: statistics are insensitive to
the non-finite elements of a scalar series, every emitted value is finite
(never NaN or infinite), on the input with_nan = [0.5, NaN, 0.7] the mean
is 3/5 = 0.6 and the number of retained elements is 2 — but the retained
count is not emitted as a metric, and the cited standalone variant does
not filter at all: it emits NaN statistics and count = 3 for the same
input (see the counterexample). -/
theorem claim_C4 :
    (∀ (k : String) (vs : List RVal),
        compute_reward_metrics [(k, vs.map RawObservation.scalar)]
          = compute_reward_metrics [(k, (vs.filter RVal.isFinite).map RawObservation.scalar)])
    ∧ (∀ L : List (String × SignalSeries),
        (compute_reward_metrics L).all (fun p => p.2.isFiniteVal) = true)
    ∧ compute_reward_metrics
        [("with_nan", [.scalar (.fin (1/2)), .scalar .nan, .scalar (.fin (7/10))])]
      = [(metricKey "with_nan" "mean", .num (3/5)),
         (metricKey "with_nan" "max", .num (7/10)),
         (metricKey "with_nan" "min", .num (1/2)),
         (metricKey "with_nan" "std", .sqrtOf (1/100))]
    ∧ (finiteVals [RVal.fin (1/2), RVal.nan, RVal.fin (7/10)]).length = 2 := by
  refine ⟨py1_filter_finite, compute_all_finite, ?_, by decide⟩
  norm_num +decide [compute_reward_metrics, py1Signal, py1Flatten,
    RawObservation.isScalar, RawObservation.scalarVal?, finiteVals, RVal.toQ?,
    List.filterMap_cons, List.filterMap_nil, List.isEmpty,
    qMean, qMax, qMin, qVar, max_def, min_def]

/-- Counterexample to claim C4 as stated: on with_nan = [0.5, NaN, 0.7]
the cited standalone implementation emits mean = NaN (an emitted value is
NaN) and count = 3 (not the claimed retained count 2), while the cited
compute_reward_metrics emits no count key at all, so no implementation
emits the claimed count of 2. -/
theorem claim_C4_cex :
    List.lookup (metricKey "with_nan" "mean")
      (compute_reward_metrics_standalone
        [("with_nan", [.scalar (.fin (1/2)), .scalar .nan, .scalar (.fin (7/10))])])
      = some .nan
    ∧ List.lookup (metricKey "with_nan" "count")
        (compute_reward_metrics_standalone
          [("with_nan", [.scalar (.fin (1/2)), .scalar .nan, .scalar (.fin (7/10))])])
      = some (.num 3)
    ∧ List.lookup (metricKey "with_nan" "count")
        (compute_reward_metrics
          [("with_nan", [.scalar (.fin (1/2)), .scalar .nan, .scalar (.fin (7/10))])])
      = none := by
  refine ⟨by decide, ?_, by decide⟩
  norm_num +decide [compute_reward_metrics_standalone, standaloneSignal, standaloneConvert,
    atomVal?, rMean, rSum, rMax, rMin, rStdMetric, finiteVals,
    RVal.toQ?, RVal.isNan, RVal.isInf, RVal.isNinf, RVal.isFinite,
    RVal.toMetricValue, List.filterMap_cons, List.filterMap_nil, List.isEmpty,
    metricKey, List.lookup]

/-- The variance of the spec's length_score series is below 0.074
squared. -/
theorem sqrt_var_ub : Real.sqrt (7/1280) < 0.074 := by
  rw [show (0.074 : ℝ) = Real.sqrt ((0.074 : ℝ) ^ 2) by rw [Real.sqrt_sq (by norm_num)]]
  exact Real.sqrt_lt_sqrt (by norm_num) (by norm_num)

/-- The variance of the spec's length_score series is above 0.0739
squared. -/
theorem sqrt_var_lb : (0.0739 : ℝ) < Real.sqrt (7/1280) := by
  rw [show (0.0739 : ℝ) = Real.sqrt ((0.0739 : ℝ) ^ 2) by rw [Real.sqrt_sq (by norm_num)]]
  exact Real.sqrt_lt_sqrt (by norm_num) (by norm_num)

/-- Claim C7 (corrected).  On length_score = [0.8, 0.9, 0.7, 0.85],
compute_reward_metrics emits mean 13/16 = 0.8125, max 9/10, min 7/10 and
std = sqrt(7/1280), but no count key; the standalone variant also emits
count = 4.  The std value is sqrt(7/1280), which lies strictly between
0.0739 and 0.074 — approximately 0.0740, not the claimed 0.0808. -/
theorem claim_C7 :
    compute_reward_metrics [("length_score", scalarSeries [4/5, 9/10, 7/10, 17/20])]
      = [(metricKey "length_score" "mean", .num (13/16)),
         (metricKey "length_score" "max", .num (9/10)),
         (metricKey "length_score" "min", .num (7/10)),
         (metricKey "length_score" "std", .sqrtOf (7/1280))]
    ∧ compute_reward_metrics_standalone
        [("length_score", scalarSeries [4/5, 9/10, 7/10, 17/20])]
      = [(metricKey "length_score" "mean", .num (13/16)),
         (metricKey "length_score" "std", .sqrtOf (7/1280)),
         (metricKey "length_score" "min", .num (7/10)),
         (metricKey "length_score" "max", .num (9/10)),
         (metricKey "length_score" "count", .num 4)]
    ∧ (0.0739 : ℝ) < Real.sqrt (7/1280) ∧ Real.sqrt (7/1280) < 0.074 := by
  refine ⟨?_, ?_, sqrt_var_lb, sqrt_var_ub⟩
  · norm_num +decide [compute_reward_metrics, py1Signal, py1Flatten, scalarSeries,
      RawObservation.isScalar, RawObservation.scalarVal?, finiteVals, RVal.toQ?,
      List.filterMap_cons, List.filterMap_nil, List.isEmpty,
      qMean, qMax, qMin, qVar, max_def, min_def]
  · norm_num +decide [compute_reward_metrics_standalone, standaloneSignal,
      standaloneConvert, atomVal?, scalarSeries, rMean, rSum, rMax, rMin, rStdMetric,
      finiteVals, RVal.toQ?, RVal.isNan, RVal.isInf, RVal.isNinf, RVal.isFinite,
      RVal.toMetricValue, List.filterMap_cons, List.filterMap_nil, List.isEmpty,
      qMean, qMax, qMin, qVar, max_def, min_def]

/-- Counterexample to claim C7 as stated: compute_reward_metrics emits no
count key for length_score (the claim asks for count = 4), and the std
value emitted (by both implementations) is sqrt(7/1280) which differs
from the claimed 0.0808 by more than 0.001 (it is about 0.0740). -/
theorem claim_C7_cex :
    List.lookup (metricKey "length_score" "count")
      (compute_reward_metrics [("length_score", scalarSeries [4/5, 9/10, 7/10, 17/20])])
      = none
    ∧ List.lookup (metricKey "length_score" "std")
        (compute_reward_metrics_standalone
          [("length_score", scalarSeries [4/5, 9/10, 7/10, 17/20])])
      = some (.sqrtOf (7/1280))
    ∧ |Real.sqrt (7/1280) - 0.0808| > 1/1000 := by
  refine ⟨by decide, ?_, ?_⟩
  · have hrep : compute_reward_metrics_standalone
        [("length_score", scalarSeries [4/5, 9/10, 7/10, 17/20])]
      = [(metricKey "length_score" "mean", .num (13/16)),
         (metricKey "length_score" "std", .sqrtOf (7/1280)),
         (metricKey "length_score" "min", .num (7/10)),
         (metricKey "length_score" "max", .num (9/10)),
         (metricKey "length_score" "count", .num 4)] := by
      norm_num +decide [compute_reward_metrics_standalone, standaloneSignal,
        standaloneConvert, atomVal?, scalarSeries, rMean, rSum, rMax, rMin, rStdMetric,
        finiteVals, RVal.toQ?, RVal.isNan, RVal.isInf, RVal.isNinf, RVal.isFinite,
        RVal.toMetricValue, List.filterMap_cons, List.filterMap_nil, List.isEmpty,
        qMean, qMax, qMin, qVar, max_def, min_def]
    rw [hrep, lookup_metricKey_skip (show "std" ≠ "mean" by decide), lookup_metricKey_head]
  · have hub := sqrt_var_ub
    have hnn := Real.sqrt_nonneg (7/1280 : ℝ)
    rw [abs_sub_comm, abs_of_pos (by linarith)]
    linarith

/-- The stat names either aggregator can emit. -/
def statNames : List String := ["mean", "max", "min", "std", "count"]

/-- Every key compute_reward_metrics emits for a signal is
"reward/<signal>/<stat>" with a known stat. -/
theorem py1Signal_keys (k : String) (vs : SignalSeries) (p : String × MetricValue)
    (hp : p ∈ py1Signal k vs) :
    ∃ stat ∈ statNames, p.1 = metricKey k stat := by
  rw [py1Signal] at hp
  cases hpf : py1Flatten vs with
  | none => simp only [hpf] at hp; exact absurd hp (List.not_mem_nil p)
  | some flat =>
    simp only [hpf] at hp
    by_cases h1 : flat.isEmpty = true
    · rw [if_pos h1] at hp; exact absurd hp (List.not_mem_nil p)
    · rw [if_neg h1] at hp
      by_cases h2 : (finiteVals flat).isEmpty = true
      · rw [if_pos h2] at hp; exact absurd hp (List.not_mem_nil p)
      · rw [if_neg h2] at hp
        rcases List.mem_append.1 hp with h | h
        · rcases List.mem_cons.1 h with rfl | h
          · exact ⟨"mean", by decide, rfl⟩
          rcases List.mem_cons.1 h with rfl | h
          · exact ⟨"max", by decide, rfl⟩
          rcases List.mem_cons.1 h with rfl | h
          · exact ⟨"min", by decide, rfl⟩
          · exact absurd h (List.not_mem_nil p)
        · by_cases h3 : 1 < (finiteVals flat).length
          · rw [if_pos h3] at h
            rcases List.mem_cons.1 h with rfl | h
            · exact ⟨"std", by decide, rfl⟩
            · exact absurd h (List.not_mem_nil p)
          · rw [if_neg h3] at h
            exact absurd h (List.not_mem_nil p)

/-- Every key the standalone aggregator emits for a signal is
"reward/<signal>/<stat>" with a known stat. -/
theorem standaloneSignal_keys (k : String) (vs : SignalSeries) (p : String × MetricValue)
    (hp : p ∈ standaloneSignal k vs) :
    ∃ stat ∈ statNames, p.1 = metricKey k stat := by
  rw [standaloneSignal] at hp
  cases hc : standaloneConvert vs with
  | none => simp only [hc] at hp; exact absurd hp (List.not_mem_nil p)
  | some pr =>
    obtain ⟨len, elems⟩ := pr
    simp only [hc] at hp
    by_cases h1 : len = 0
    · rw [if_pos h1] at hp; exact absurd hp (List.not_mem_nil p)
    · rw [if_neg h1] at hp
      by_cases h2 : elems.isEmpty = true
      · rw [if_pos h2] at hp
        rcases List.mem_cons.1 hp with rfl | h
        · exact ⟨"mean", by decide, rfl⟩
        rcases List.mem_cons.1 h with rfl | h
        · exact ⟨"std", by decide, rfl⟩
        · exact absurd h (List.not_mem_nil p)
      · rw [if_neg h2] at hp
        rcases List.mem_cons.1 hp with rfl | h
        · exact ⟨"mean", by decide, rfl⟩
        rcases List.mem_cons.1 h with rfl | h
        · exact ⟨"std", by decide, rfl⟩
        rcases List.mem_cons.1 h with rfl | h
        · exact ⟨"min", by decide, rfl⟩
        rcases List.mem_cons.1 h with rfl | h
        · exact ⟨"max", by decide, rfl⟩
        rcases List.mem_cons.1 h with rfl | h
        · exact ⟨"count", by decide, rfl⟩
        · exact absurd h (List.not_mem_nil p)

/-- Claim C8 (confirmed).  Every key either aggregator ever emits has the
form "reward/<signal>/<stat>" with <signal> a key of the input mapping and
<stat> among mean, max, min, std, count. -/
theorem claim_C8 (L : List (String × SignalSeries)) (p : String × MetricValue)
    (h : p ∈ compute_reward_metrics L ∨ p ∈ compute_reward_metrics_standalone L) :
    ∃ s ∈ L.map Prod.fst, ∃ stat ∈ statNames, p.1 = metricKey s stat := by
  induction L with
  | nil => rcases h with h | h <;> exact absurd h (List.not_mem_nil p)
  | cons q t ih =>
    obtain ⟨k, vs⟩ := q
    rcases h with h | h
    · rw [show compute_reward_metrics ((k, vs) :: t)
          = py1Signal k vs ++ compute_reward_metrics t from rfl] at h
      rcases List.mem_append.1 h with h | h
      · obtain ⟨stat, hs, hp⟩ := py1Signal_keys k vs p h
        exact ⟨k, by simp, stat, hs, hp⟩
      · obtain ⟨s, hs1, hrest⟩ := ih (Or.inl h)
        refine ⟨s, ?_, hrest⟩
        simp only [List.map_cons]
        exact List.mem_cons_of_mem _ hs1
    · rw [show compute_reward_metrics_standalone ((k, vs) :: t)
          = standaloneSignal k vs ++ compute_reward_metrics_standalone t from rfl] at h
      rcases List.mem_append.1 h with h | h
      · obtain ⟨stat, hs, hp⟩ := standaloneSignal_keys k vs p h
        exact ⟨k, by simp, stat, hs, hp⟩
      · obtain ⟨s, hs1, hrest⟩ := ih (Or.inr h)
        refine ⟨s, ?_, hrest⟩
        simp only [List.map_cons]
        exact List.mem_cons_of_mem _ hs1

/-- Witness for claim C8: the standalone report of the empty-2-D series
contains the cell (reward/e/mean, NaN), whose key has the required
shape. -/
theorem claim_C8_witness :
    ((metricKey "e" "mean", MetricValue.nan)
        ∈ compute_reward_metrics [("e", ([.nested [], .nested []] : SignalSeries))]
      ∨ (metricKey "e" "mean", MetricValue.nan)
        ∈ compute_reward_metrics_standalone [("e", ([.nested [], .nested []] : SignalSeries))])
    ∧ ∃ s ∈ ([("e", ([.nested [], .nested []] : SignalSeries))]).map Prod.fst,
        ∃ stat ∈ statNames, (metricKey "e" "mean", MetricValue.nan).1 = metricKey s stat :=
  ⟨Or.inr (by decide), claim_C8 _ _ (Or.inr (by decide))⟩

end VerlArticulation
